import Mathlib

/-!
Shallow embedding of the imagor request-orchestration core (src/imagor.go):
the classified error sentinels, the loader fallback chain inside `load`, the
processor chain inside `Do`, the authorization guard, the persistence fan-out
`save`, and the HTTP response shaping of `ServeHTTP`. External collaborators
(the params parser, the hash, the error classifier, JSON marshalling, content
sniffing, the hybridcache library) are modelled from the spec where the
orchestration code consults them; each such definition says so in its doc
comment.
-/

namespace ImagorSpec

/-- Bytes of an image buffer (Go `[]byte`). The empty list plays the role of
a nil or empty slice: the orchestration code only ever tests `len(b) > 0`. -/
abbrev Bytes := List Nat

/-- Classified error values. The orchestration code compares errors against
the sentinels `ErrPass`, `ErrNotFound`, `ErrHashMismatch` and against context
cancellation; `other` stands for any further classified error, carrying its
HTTP status code and message. A Go `nil` error is `Option.none`. -/
inductive Err where
  | pass
  | notFound
  | hashMismatch
  | canceled
  | other (code : Nat) (msg : String)
deriving DecidableEq, Repr

/-- Modelled from the spec: the HTTP status of each classified error. The
error module is not among the examined sources; the spec fixes `NotFound` to
a client-visible not-found status and gives `Pass` a status of its own
(403/404-equivalent policy choice), and unrecognized errors a 500-equivalent
one. -/
def Err.code : Err → Nat
  | .pass => 403
  | .notFound => 404
  | .hashMismatch => 403
  | .canceled => 499
  | .other c _ => c

/-- Modelled from the spec: `WrapError` maps an arbitrary failure to a
classified error. In this embedding every error value is already classified,
so the map is the identity, and a Go `nil` error stays `nil`. -/
def WrapError : Option Err → Option Err :=
  fun e => e

/-- Modelled from the spec: the structured result of a successful processing
stage (content type, dimensions, ...). Only the content type is consulted by
the orchestration code, so only it is carried. -/
structure Meta where
  ContentType : String
deriving DecidableEq, Repr

/-- Modelled from the spec: the Resource Request produced by the external
params parser — the canonical path token, the resolved image identifier, the
embedded signature token, and the `Unsafe` and `Meta` flags. -/
structure Params where
  Path : String
  Image : String
  Hash : String
  Unsafe : Bool
  Meta : Bool
deriving DecidableEq, Repr

/-- Modelled from the spec: `Params.Verify` recomputes the expected signature
token from the canonical path and the shared secret and compares it with the
embedded token. The concrete keyed hash is not among the examined sources, so
it is passed in as `hashFn`. -/
def Params.Verify (hashFn : String → String → String) (p : Params)
    (secret : String) : Bool :=
  p.Hash == hashFn p.Path secret

/-- Observable effect of the orchestrator recorded for the theorems:
`loadCalled` marks the loader chain (through the dedup cache layer) being
invoked for an image identifier. -/
inductive Event where
  | loadCalled (image : String)
deriving DecidableEq, Repr

/-- Behaviour of one loader backend for a fixed inbound request: the image
identifier determines the returned bytes and error (Go
`Loader.Load(r, image)` with `r` fixed). -/
abbrev LoaderFn := String → Bytes × Option Err

/-- Behaviour of one processor stage for a fixed inbound request: the input
buffer determines the returned bytes, metadata and error (Go
`Processor.Process(ctx, buf, params, load)` with everything but `buf`
fixed). -/
abbrev Stage := Bytes → Bytes × Option Meta × Option Err

/-- The `Imagor` application state (imagor.go lines 46-59) restricted to the
fields the modelled code paths consult. Loaders and processors are carried
as their observable behaviours; `Storages` carries only the storage names,
because `save` never consults anything else inside the modelled code;
`HashFn` stands for the external signature function `Hash(path, secret)`. -/
structure App where
  Unsafe : Bool
  Secret : String
  HashFn : String → String → String
  Loaders : List LoaderFn
  Storages : List String
  RequestTimeout : Nat
  Processors : List Stage

/-- The loader loop of `load` (imagor.go lines 193-209). The named returns
`buf` and `err` thread through the iterations: non-empty returned bytes
replace the retained buffer before the error test; a nil error resets `err`
and stops the chain; any error is recorded in `err` and the chain
continues. -/
def loaderLoop (loaders : List LoaderFn) (image : String)
    (buf : Bytes) (err : Option Err) : Bytes × Option Err :=
  match loaders with
  | [] => (buf, err)
  | l :: rest =>
      match (l image).2 with
      | none => (if 0 < (l image).1.length then (l image).1 else buf, none)
      | some e =>
          loaderLoop rest image
            (if 0 < (l image).1.length then (l image).1 else buf) (some e)

/-- The tail of the producing closure of `load` (imagor.go lines 210-224):
on failure, unless the error is a cancellation, a trailing `Pass` becomes
`NotFound`; every other error is kept as-is. (The success branch only logs
and schedules `save`, leaving the result untouched.) -/
def finishLoad : Option Err → Option Err
  | none => none
  | some e =>
      if e = .canceled then some .canceled
      else if e = .pass then some .notFound
      else some e

/-- The producing function that `load` hands to the dedup cache (imagor.go
lines 191-225): run the loader loop from an empty buffer and a nil error,
then apply the exhaustion conversion of `finishLoad`. -/
def loadFunc (loaders : List LoaderFn) (image : String) : Bytes × Option Err :=
  let r := loaderLoop loaders image [] none
  (r.1, finishLoad r.2)

/-- The function `Imagor.load` (imagor.go lines 189-228) as observed by a
caller on a cold key: the dedup cache runs the producing function and hands
its outcome back, and the error is then classified by `WrapError`. The event
list records that the loader chain / cache layer was reached. The cache's
own concurrency and TTL behaviour lives in the external hybridcache library
and is not modelled. -/
def load (app : App) (image : String) : (Bytes × Option Err) × List Event :=
  (((loadFunc app.Loaders image).1, WrapError (loadFunc app.Loaders image).2),
    [Event.loadCalled image])

/-- The processor loop of `Do` (imagor.go lines 162-185). On the first stage
returning a nil error the loop breaks with that stage's bytes and metadata —
note that the named return `err` is left at whatever was recorded before. On
`Pass`, non-empty carried bytes become the next stage's input. On any other
error, `err` is set and the loop continues. -/
def processLoop (stages : List Stage) (buf : Bytes) (meta : Option Meta)
    (err : Option Err) : Bytes × Option Meta × Option Err :=
  match stages with
  | [] => (buf, meta, err)
  | p :: rest =>
      match (p buf).2.2 with
      | none => ((p buf).1, (p buf).2.1, err)
      | some e =>
          if e = Err.pass then
            processLoop rest (if 0 < (p buf).1.length then (p buf).1 else buf)
              meta err
          else
            processLoop rest buf meta (some e)

/-- The function `Imagor.Do` (imagor.go lines 141-187): authorize, load
through the dedup cache layer, then run the processor chain. The second
component is the trace of observable effects; the request-timeout context
setup has no effect observable in this embedding. -/
def Do (app : App) (params : Params) :
    (Bytes × Option Meta × Option Err) × List Event :=
  if !(app.Unsafe && params.Unsafe) && !(Params.Verify app.HashFn params app.Secret) then
    (([], none, some .hashMismatch), [])
  else
    match (load app params.Image).1.2 with
    | some e =>
        (((load app params.Image).1.1, none, some e), (load app params.Image).2)
    | none =>
        (processLoop app.Processors (load app params.Image).1.1 none none,
          (load app params.Image).2)

/-- Modelled from the spec: content sniffing of a byte buffer
(`http.DetectContentType`, external). Its exact value never influences the
modelled control flow. -/
def DetectContentType (_ : Bytes) : String :=
  "application/octet-stream"

/-- Body of an HTTP response as the orchestration produces it: raw bytes, the
JSON of a metadata value, or the JSON of an error value. -/
inductive Body where
  | bytes (b : Bytes)
  | jsonMeta (m : Meta)
  | jsonErr (e : Option Err)
deriving DecidableEq, Repr

/-- An HTTP response as observed by the client: the status (200 unless
`WriteHeader` ran), the Content-Type header when set, the Content-Length
header when set, and the body. (JSON bodies get their length from the
external marshaller, so it is left unset here.) -/
structure Response where
  status : Nat
  contentType : Option String
  contentLength : Option Nat
  body : Body
deriving DecidableEq, Repr

/-- The response shaping of `ServeHTTP` after `Do` returns (imagor.go lines
108-138), as a function of the request params and the pipeline result. When
metadata is present a metadata-only request is answered with its JSON at
once; otherwise the content type is set from the metadata or sniffed, then
the error branch writes the classified status (with `Pass` converted to
`NotFound`) and either the buffer (when non-empty) or a JSON error body. -/
def serveResult (params : Params) (buf : Bytes) (meta : Option Meta)
    (err : Option Err) : Response :=
  match meta, params.Meta with
  | some m, true =>
      { status := 200, contentType := some "application/json",
        contentLength := none, body := .jsonMeta m }
  | _, _ =>
      let ct : Option String :=
        match meta with
        | some m => some m.ContentType
        | none => if 0 < buf.length then some (DetectContentType buf) else none
      match err with
      | some e0 =>
          let e := if e0 = .pass then Err.notFound else e0
          if 0 < buf.length then
            { status := e.code, contentType := ct,
              contentLength := some buf.length, body := .bytes buf }
          else
            { status := e.code, contentType := some "application/json",
              contentLength := none, body := .jsonErr (some e0) }
      | none =>
          { status := 200, contentType := ct,
            contentLength := some buf.length, body := .bytes buf }

/-- The cancel values built by `Imagor.save` (imagor.go lines 230-248): for
each storage the loop declares `var cancel func()` — a nil function value,
here `none` — and assigns a real cancel only when `RequestTimeout > 0`; each
spawned task then runs `defer cancel()` unconditionally. -/
def saveTaskCancels (RequestTimeout : Nat) (storages : List String) :
    List (Option (Unit → Unit)) :=
  storages.map (fun _ => if 0 < RequestTimeout then some (fun _ => ()) else none)

/-- Outcome of the deferred `cancel()` at the end of a spawned save task:
calling a nil Go function value panics; calling a real one succeeds. -/
def runDeferredCancel : Option (Unit → Unit) → Except String Unit
  | none => .error "panic: call of nil func value"
  | some f => .ok (f ())

/-- Holds when every loader backend in the list returns an error (a non-nil
second component) for the given image, so the loader loop never breaks inside
the list. -/
def allErrLoaders : List LoaderFn → String → Bool
  | [], _ => true
  | l :: rest, image => ((l image).2).isSome && allErrLoaders rest image

/-- The retained fallback buffer after the loader loop has worked through the
given backends: non-empty returned bytes replace it, empty ones leave it. -/
def loadBufAfter : List LoaderFn → String → Bytes → Bytes
  | [], _, buf => buf
  | l :: rest, image, buf =>
      loadBufAfter rest image (if 0 < (l image).1.length then (l image).1 else buf)

/-- The recorded error after the loader loop has worked through the given
backends without breaking: each iteration overwrites it with that backend's
error. -/
def loadErrAfter : List LoaderFn → String → Option Err → Option Err
  | [], _, err => err
  | l :: rest, image, _ => loadErrAfter rest image ((l image).2)

/-- The buffer a processor stage leaves for the next stage when it does not
succeed: on `Pass` with non-empty carried bytes those bytes, otherwise the
incoming buffer. -/
def stepBuf (p : Stage) (buf : Bytes) : Bytes :=
  match (p buf).2.2 with
  | some e =>
      if e = Err.pass then (if 0 < (p buf).1.length then (p buf).1 else buf)
      else buf
  | none => buf

/-- The recorded error a processor stage leaves when it does not succeed:
`Pass` leaves it untouched, any other error overwrites it. -/
def stepErr (p : Stage) (buf : Bytes) (err : Option Err) : Option Err :=
  match (p buf).2.2 with
  | some e => if e = Err.pass then err else some e
  | none => err

/-- Holds when no stage in the list succeeds (each returns a non-nil error)
along the buffer evolution the processor loop would follow. -/
def allErrStages : List Stage → Bytes → Bool
  | [], _ => true
  | p :: rest, buf => ((p buf).2.2).isSome && allErrStages rest (stepBuf p buf)

/-- The carried buffer after the processor loop has worked through the given
stages without any of them succeeding. -/
def afterBuf : List Stage → Bytes → Bytes
  | [], buf => buf
  | p :: rest, buf => afterBuf rest (stepBuf p buf)

/-- The recorded error (the last non-`Pass` error, or the initial value if
every stage passed) after the processor loop has worked through the given
stages without any of them succeeding. -/
def afterErr : List Stage → Bytes → Option Err → Option Err
  | [], _, err => err
  | p :: rest, buf, err => afterErr rest (stepBuf p buf) (stepErr p buf err)

theorem loaderLoop_append (pre rest : List LoaderFn) (image : String)
    (buf : Bytes) (err : Option Err) (h : allErrLoaders pre image = true) :
    loaderLoop (pre ++ rest) image buf err =
      loaderLoop rest image (loadBufAfter pre image buf)
        (loadErrAfter pre image err) := by
  induction pre generalizing buf err with
  | nil => rfl
  | cons l pre ih =>
      simp only [allErrLoaders, Bool.and_eq_true] at h
      obtain ⟨h1, h2⟩ := h
      cases hsome : (l image).2 with
      | none => rw [hsome] at h1; simp at h1
      | some e =>
          simp only [List.cons_append, loaderLoop, loadBufAfter, loadErrAfter,
            hsome]
          exact ih _ _ h2

theorem processLoop_append (pre rest : List Stage) (buf : Bytes)
    (meta : Option Meta) (err : Option Err)
    (h : allErrStages pre buf = true) :
    processLoop (pre ++ rest) buf meta err =
      processLoop rest (afterBuf pre buf) meta (afterErr pre buf err) := by
  induction pre generalizing buf err with
  | nil => rfl
  | cons p pre ih =>
      simp only [allErrStages, Bool.and_eq_true] at h
      obtain ⟨h1, h2⟩ := h
      cases hsome : (p buf).2.2 with
      | none => rw [hsome] at h1; simp at h1
      | some e =>
          by_cases hp : e = Err.pass
          · subst hp
            simp only [List.cons_append, processLoop, hsome, if_pos rfl,
              afterBuf, afterErr, stepBuf, stepErr]
            exact ih _ _ (by simpa [stepBuf, hsome] using h2)
          · simp only [List.cons_append, processLoop, hsome, if_neg hp,
              afterBuf, afterErr, stepBuf, stepErr]
            exact ih _ _ (by simpa [stepBuf, hsome, hp] using h2)

/-- A loader backend that declines with `Pass` and returns no bytes. -/
def ldPass : LoaderFn := fun _ => ([], some Err.pass)

/-- A loader backend that succeeds with the bytes `[7]`. -/
def ldOk7 : LoaderFn := fun _ => ([7], none)

/-- A loader backend that fails with a classified error while returning the
partial bytes `[5]`. -/
def ldErrBytes : LoaderFn := fun _ => ([5], some (Err.other 500 "boom"))

/-- A loader backend that succeeds but returns an empty byte buffer. -/
def ldOkEmpty : LoaderFn := fun _ => ([], none)

/-- C4: when every backend of the chain errs, the producing function of
`load` returns the last backend's error, except that a trailing `Pass` is
converted to `NotFound`. -/
theorem c4_loader_exhaustion (pre : List LoaderFn) (llast : LoaderFn)
    (image : String) (e : Err)
    (hpre : allErrLoaders pre image = true)
    (hlast : (llast image).2 = some e) :
    (loadFunc (pre ++ [llast]) image).2 =
      (if e = Err.pass then some Err.notFound else some e) := by
  unfold loadFunc
  rw [loaderLoop_append pre [llast] image [] none hpre]
  simp only [loaderLoop, hlast, finishLoad]
  by_cases hc : e = Err.canceled
  · subst hc; simp
  · by_cases hp : e = Err.pass
    · subst hp; simp at hc; simp
    · simp [hc, hp]

/-- Witness for C4 at the spec's own instance: two `Pass` loaders exhaust the
chain and the result is `NotFound`. -/
theorem c4_witness :
    allErrLoaders [ldPass] "img" = true ∧ (ldPass "img").2 = some Err.pass ∧
      (loadFunc [ldPass, ldPass] "img").2 = some Err.notFound :=
  ⟨by decide, rfl, c4_loader_exhaustion [ldPass] ldPass "img" Err.pass (by decide) rfl⟩

/-- C5: backends are tried in order and only a nil error stops the chain;
after any erring prefix, the first succeeding backend's non-empty bytes are
returned with a nil error, whatever comes later. -/
theorem c5_loader_fallback (pre post : List LoaderFn) (s : LoaderFn)
    (image : String)
    (hpre : allErrLoaders pre image = true)
    (hs : (s image).2 = none) (hb : 0 < (s image).1.length) :
    loadFunc (pre ++ s :: post) image = ((s image).1, none) := by
  unfold loadFunc
  rw [loaderLoop_append pre (s :: post) image [] none hpre]
  simp only [loaderLoop, hs, if_pos hb, finishLoad]

/-- Witness for C5 at the spec's own instance: loaders `[A(Pass), B(bytes, nil)]`
give B's bytes with no error. -/
theorem c5_witness :
    allErrLoaders [ldPass] "img" = true ∧ (ldOk7 "img").2 = none ∧
      0 < (ldOk7 "img").1.length ∧
      loadFunc [ldPass, ldOk7] "img" = ([7], none) :=
  ⟨by decide, rfl, by decide,
    c5_loader_fallback [ldPass] [] ldOk7 "img" (by decide) rfl (by decide)⟩

/-- The retained buffer is unchanged by backends that return empty bytes. -/
theorem loadBufAfter_empty (mid : List LoaderFn) (image : String) (buf : Bytes)
    (h : mid.all (fun l => (l image).1.isEmpty) = true) :
    loadBufAfter mid image buf = buf := by
  induction mid with
  | nil => rfl
  | cons l mid ih =>
      simp only [List.all_cons, Bool.and_eq_true, List.isEmpty_iff] at h
      obtain ⟨h1, h2⟩ := h
      simp only [loadBufAfter, h1]
      exact ih (by simpa [List.all_eq_true, List.isEmpty_iff] using h2)

/-- C10: a backend's bytes replace the retained buffer only when non-empty;
a backend erring with non-empty bytes followed (after backends yielding no
bytes) by a success with empty bytes makes `load` return the earlier
backend's bytes with a nil error. -/
theorem c10_empty_success_retains (pre mid post : List LoaderFn)
    (a s : LoaderFn) (image : String)
    (hpre : allErrLoaders pre image = true)
    (ha : ((a image).2).isSome = true) (hab : 0 < (a image).1.length)
    (hmidErr : allErrLoaders mid image = true)
    (hmidEmpty : mid.all (fun l => (l image).1.isEmpty) = true)
    (hs : s image = ([], none)) :
    loadFunc (pre ++ a :: (mid ++ s :: post)) image = ((a image).1, none) := by
  unfold loadFunc
  rw [loaderLoop_append pre (a :: (mid ++ s :: post)) image [] none hpre]
  cases hae : (a image).2 with
  | none => rw [hae] at ha; simp at ha
  | some ea =>
      simp only [loaderLoop, hae, if_pos hab]
      rw [loaderLoop_append mid (s :: post) image (a image).1 (some ea) hmidErr]
      rw [loadBufAfter_empty mid image (a image).1 hmidEmpty]
      simp only [loaderLoop, hs, List.length_nil, Nat.lt_irrefl, if_neg,
        finishLoad]
      simp

/-- Witness for C10: loader A errs carrying bytes `[5]`, loader B succeeds
with empty bytes; the chain returns `([5], nil)`. -/
theorem c10_witness :
    ((ldErrBytes "img").2).isSome = true ∧ 0 < (ldErrBytes "img").1.length ∧
      ldOkEmpty "img" = ([], none) ∧
      loadFunc [ldErrBytes, ldOkEmpty] "img" = ([5], none) :=
  ⟨by decide, by decide, rfl,
    c10_empty_success_retains [] [] [] ldErrBytes ldOkEmpty "img"
      (by decide) (by decide) (by decide) (by decide) (by decide) rfl⟩

/-- A processor stage that fails with a classified 500 error, carrying the
bytes `[1]`. -/
def stgBoom : Stage := fun _ => ([1], none, some (Err.other 500 "boom"))

/-- A processor stage that succeeds with the bytes `[2]` and a PNG metadata
value. -/
def stgOk : Stage := fun _ => ([2], some ⟨"image/png"⟩, none)

/-- A processor stage that declines with `Pass`, carrying no bytes. -/
def stgPass : Stage := fun _ => ([], none, some Err.pass)

/-- Request params that pass the authorization guard of the modelled app by
the global-and-per-request `Unsafe` route. -/
def cParams : Params :=
  { Path := "p", Image := "img", Hash := "", Unsafe := true, Meta := false }

/-- An app whose single loader yields `[9]` and whose processors are a
failing stage followed by a succeeding one. -/
def c1App : App :=
  { Unsafe := true, Secret := "", HashFn := fun _ _ => "x",
    Loaders := [fun _ => ([9], none)], Storages := [], RequestTimeout := 30,
    Processors := [stgBoom, stgOk] }

/-- An app whose single loader yields `[9]` and whose single processor
declines with `Pass`. -/
def c2App : App :=
  { Unsafe := true, Secret := "", HashFn := fun _ _ => "x",
    Loaders := [fun _ => ([9], none)], Storages := [], RequestTimeout := 30,
    Processors := [stgPass] }

/-- Counterexample to C1 as stated: the first stage records a non-`Pass`
error, the second succeeds, and `Do` returns the succeeding stage's bytes
and metadata — but together with the recorded error, not with a nil error. -/
theorem c1_counterexample :
    (Do c1App cParams).1 = ([2], some ⟨"image/png"⟩, some (Err.other 500 "boom")) ∧
      (Do c1App cParams).1.2.2 ≠ none := by
  constructor
  · rfl
  · decide

/-- C1 as amended: on the first stage returning a nil error the chain stops
and `Do` returns that stage's bytes and metadata; the error component,
however, is whatever non-`Pass` error the erring prefix recorded (`Do` does
not clear it on success), nil only when the earlier stages all passed. -/
theorem c1_first_success (app : App) (params : Params) (pre post : List Stage)
    (s : Stage) (buf0 : Bytes)
    (hauth : (app.Unsafe && params.Unsafe) = true)
    (hload : loadFunc app.Loaders params.Image = (buf0, none))
    (hst : app.Processors = pre ++ s :: post)
    (hpre : allErrStages pre buf0 = true)
    (hs : (s (afterBuf pre buf0)).2.2 = none) :
    (Do app params).1 =
      ((s (afterBuf pre buf0)).1, (s (afterBuf pre buf0)).2.1,
        afterErr pre buf0 none) := by
  simp only [Do, hauth, Bool.not_true, Bool.false_and, Bool.false_eq_true,
    if_false, load, hload, WrapError]
  rw [hst, processLoop_append pre (s :: post) buf0 none none hpre]
  simp only [processLoop, hs]

/-- Witness for C1 as amended: in `c1App` the failing first stage's error is
carried through the succeeding second stage's result. -/
theorem c1_witness :
    (c1App.Unsafe && cParams.Unsafe) = true ∧
      loadFunc c1App.Loaders cParams.Image = ([9], none) ∧
      c1App.Processors = [stgBoom] ++ stgOk :: [] ∧
      allErrStages [stgBoom] [9] = true ∧
      (stgOk (afterBuf [stgBoom] [9])).2.2 = none ∧
      (Do c1App cParams).1 = ([2], some ⟨"image/png"⟩, some (Err.other 500 "boom")) :=
  ⟨rfl, rfl, rfl, by decide, rfl,
    c1_first_success c1App cParams [stgBoom] [] stgOk [9] rfl rfl rfl
      (by decide) rfl⟩

/-- Counterexample to C2 as stated: with a single stage declining with
`Pass`, `Do` returns a nil error, not the `Pass` error the claim
predicts. -/
theorem c2_counterexample :
    (Do c2App cParams).1.2.2 = none ∧
      (Do c2App cParams).1.2.2 ≠ some Err.pass := by
  constructor
  · rfl
  · decide

/-- C2 as amended: when no stage succeeds, `Do` returns the carried buffer,
no metadata, and the last non-`Pass` error recorded; when every stage
returned `Pass`, no error was recorded, and the returned error is nil (not
`Pass`). -/
theorem c2_exhaustion (app : App) (params : Params) (buf0 : Bytes)
    (hauth : (app.Unsafe && params.Unsafe) = true)
    (hload : loadFunc app.Loaders params.Image = (buf0, none))
    (hall : allErrStages app.Processors buf0 = true) :
    (Do app params).1 =
      (afterBuf app.Processors buf0, none, afterErr app.Processors buf0 none) := by
  simp only [Do, hauth, Bool.not_true, Bool.false_and, Bool.false_eq_true,
    if_false, load, hload, WrapError]
  rw [← List.append_nil app.Processors,
    processLoop_append app.Processors [] buf0 none none hall]
  simp [processLoop]

/-- Witness for C2 as amended: in `c2App` the single `Pass` stage leaves the
loaded buffer and a nil error. -/
theorem c2_witness :
    (c2App.Unsafe && cParams.Unsafe) = true ∧
      loadFunc c2App.Loaders cParams.Image = ([9], none) ∧
      allErrStages c2App.Processors [9] = true ∧
      (Do c2App cParams).1 = ([9], none, none) :=
  ⟨rfl, rfl, by decide, c2_exhaustion c2App cParams [9] rfl rfl (by decide)⟩

/-- C3: when the unsafe exemption does not apply and the signature check
fails, `Do` returns the hash-mismatch error with an empty buffer, no
metadata, and an empty event trace — the loader chain and the dedup cache
layer are never reached. -/
theorem c3_auth_precedes_load (app : App) (params : Params)
    (hguard : (app.Unsafe && params.Unsafe) = false)
    (hver : Params.Verify app.HashFn params app.Secret = false) :
    Do app params = (([], none, some Err.hashMismatch), []) := by
  simp only [Do, hguard, hver, Bool.not_false, Bool.and_self, if_true]

/-- An app that does not allow unsafe requests, used against a request whose
embedded token cannot match the recomputed signature. -/
def c3App : App :=
  { Unsafe := false, Secret := "s", HashFn := fun _ _ => "expected",
    Loaders := [ldOk7], Storages := [], RequestTimeout := 30,
    Processors := [stgOk] }

/-- A request carrying a token that differs from the recomputed signature. -/
def c3Params : Params :=
  { Path := "p", Image := "img", Hash := "wrong", Unsafe := false, Meta := false }

/-- Witness for C3: the concrete mismatching request is rejected with
`HashMismatch` and an empty event trace. -/
theorem c3_witness :
    (c3App.Unsafe && c3Params.Unsafe) = false ∧
      Params.Verify c3App.HashFn c3Params c3App.Secret = false ∧
      Do c3App c3Params = (([], none, some Err.hashMismatch), []) :=
  ⟨rfl, by decide, c3_auth_precedes_load c3App c3Params rfl (by decide)⟩

/-- Request params that ask for metadata instead of bytes. -/
def cMetaParams : Params :=
  { Path := "p", Image := "img", Hash := "", Unsafe := true, Meta := true }

/-- Counterexample to C6 as stated: a metadata request whose pipeline result
carries both a metadata value and the `Pass` error is answered with the
metadata JSON and the default 200 status — no not-found status is written. -/
theorem c6_counterexample :
    (serveResult cMetaParams [1] (some ⟨"image/png"⟩) (some Err.pass)).status ≠
        Err.code Err.notFound ∧
      (serveResult cMetaParams [1] (some ⟨"image/png"⟩) (some Err.pass)).body =
        Body.jsonMeta ⟨"image/png"⟩ := by
  constructor
  · decide
  · rfl

/-- C6 as amended: outside the metadata short-circuit (a metadata request
with metadata present), a `Pass` error at the response boundary is written
as the `NotFound` status; the `Pass` status itself is never written. -/
theorem c6_pass_as_notfound (params : Params) (buf : Bytes)
    (meta : Option Meta) (h : params.Meta = false ∨ meta = none) :
    (serveResult params buf meta (some Err.pass)).status = Err.code Err.notFound ∧
      (serveResult params buf meta (some Err.pass)).status ≠ Err.code Err.pass := by
  rcases meta with _ | m
  · by_cases hb : 0 < buf.length <;> simp [serveResult, hb, Err.code]
  · rcases h with h | h
    · by_cases hb : 0 < buf.length <;> simp [serveResult, h, hb, Err.code]
    · exact absurd h (by simp)

/-- Witness for C6 as amended: a plain (non-metadata) request with fallback
bytes and the `Pass` error gets the `NotFound` status. -/
theorem c6_witness :
    (cParams.Meta = false ∨ (none : Option Meta) = none) ∧
      ((serveResult cParams [1] none (some Err.pass)).status = Err.code Err.notFound ∧
        (serveResult cParams [1] none (some Err.pass)).status ≠ Err.code Err.pass) :=
  ⟨Or.inl rfl, c6_pass_as_notfound cParams [1] none (Or.inl rfl)⟩

/-- Counterexample to C7 as stated: a metadata request whose pipeline result
is a classified error together with a non-empty buffer and a metadata value
is answered with the metadata JSON and the default 200 status — neither the
error status nor the buffer is emitted. -/
theorem c7_counterexample :
    (serveResult cMetaParams [1] (some ⟨"image/png"⟩)
        (some (Err.other 500 "boom"))).status ≠ Err.code (Err.other 500 "boom") ∧
      (serveResult cMetaParams [1] (some ⟨"image/png"⟩)
        (some (Err.other 500 "boom"))).body ≠ Body.bytes [1] := by
  constructor
  · decide
  · decide

/-- C7 as amended: outside the metadata short-circuit, on an error the
classified status (with `Pass` read as `NotFound`) is written; a non-empty
buffer is then delivered as the body, and only an empty buffer yields the
structured JSON error body. -/
theorem c7_error_with_bytes (params : Params) (buf : Bytes)
    (meta : Option Meta) (e : Err) (h : params.Meta = false ∨ meta = none) :
    (0 < buf.length →
      (serveResult params buf meta (some e)).status =
          Err.code (if e = Err.pass then Err.notFound else e) ∧
        (serveResult params buf meta (some e)).body = Body.bytes buf) ∧
      (buf.length = 0 →
        (serveResult params buf meta (some e)).body = Body.jsonErr (some e)) := by
  rcases meta with _ | m
  · constructor
    · intro hb; simp [serveResult, hb]
    · intro hb; simp [serveResult, hb]
  · rcases h with h | h
    · constructor
      · intro hb; simp [serveResult, h, hb]
      · intro hb; simp [serveResult, h, hb]
    · exact absurd h (by simp)

/-- Witness for C7 as amended: a plain request with the buffer `[1]` and a
classified 500 error is answered with status 500 and the buffer as body. -/
theorem c7_witness :
    (cParams.Meta = false ∨ (none : Option Meta) = none) ∧
      0 < ([1] : Bytes).length ∧
      (serveResult cParams [1] none (some (Err.other 500 "boom"))).status = 500 ∧
      (serveResult cParams [1] none (some (Err.other 500 "boom"))).body =
        Body.bytes [1] :=
  ⟨Or.inl rfl, by decide,
    (c7_error_with_bytes cParams [1] none (Err.other 500 "boom")
      (Or.inl rfl)).1 (by decide)⟩

/-- C9 evaluated at the failing input: with `RequestTimeout = 0` and one
configured storage, the spawned save task's deferred cancel is the nil
function value, and running the deferred call panics; with a positive
timeout the cancel is callable and the deferred call succeeds. -/
theorem c9_nil_cancel_when_timeout_zero :
    saveTaskCancels 0 ["file"] = [none] ∧
      (saveTaskCancels 0 ["file"]).map runDeferredCancel =
        [Except.error "panic: call of nil func value"] ∧
      (saveTaskCancels 30 ["file"]).map runDeferredCancel = [Except.ok ()] :=
  ⟨rfl, rfl, rfl⟩

end ImagorSpec
